import Mathlib

/-!
Verification development for the batch MTF pipeline in `batch_process.py`.

The program discovers image files under a directory, lets an operator pick one
rectangular region of interest (ROI) on the first image, crops every discovered
image with that ROI, computes an MTF value per image via an external engine,
and aggregates the successes into a path-keyed ordered mapping.

Modelling conventions:
- Python strings (file paths) are modelled as lists of characters (`Str`);
  Python's string comparison used by `sorted` is the lexicographic order on
  character code points (`lexLe`), and `str.split(os.sep)` is `splitSep`
  with `os.sep` taken to be the character `/`.
- The filesystem walked by `glob.glob(..., recursive=True)` is modelled as the
  list of full path strings of the files the recursive scan visits under the
  root (the `**` component matches zero or more directory levels, so every
  file under the root at any depth is a candidate); a glob call returns the
  candidates whose name matches the pattern.  The exclusion of dot-files by
  `glob` is not modelled: no claim depends on hidden files.
- External collaborators (image decoding `mtf.Helper.LoadImageAsArray`, the
  MTF engine `mtf.MTF.CalculateMtf` / `mtf.MTF.GetMtfValue`, and the display
  surface) are parameters of the embedded functions.  A collaborator that can
  raise is modelled as `Option`-valued, `none` meaning it raised.
- A Python function that can raise returns `Except e a`; `.error` is an
  escaping exception.
-/

/-- A Python string, as its list of characters. -/
abbrev Str := List Char

/-- Python's string "less or equal": lexicographic order on code points
(`Char` in Lean is ordered by code point).  This is the order used by
`sorted` on a list of path strings. -/
def lexLe : Str → Str → Bool
  | [], _ => true
  | _ :: _, [] => false
  | a :: as, b :: bs => if a < b then true else if b < a then false else lexLe as bs

/-- `lexLe` as a binary relation, for `List.insertionSort`. -/
def pathLe (a b : Str) : Prop := lexLe a b = true

instance : DecidableRel pathLe :=
  fun a b => inferInstanceAs (Decidable (lexLe a b = true))

theorem lexLe_total : ∀ a b : Str, lexLe a b = true ∨ lexLe b a = true
  | [], _ => Or.inl rfl
  | _ :: _, [] => Or.inr rfl
  | a :: as, b :: bs => by
    rcases lt_trichotomy a b with h | h | h
    · exact Or.inl (by simp [lexLe, h])
    · subst h
      rcases lexLe_total as bs with h | h
      · exact Or.inl (by simp [lexLe, h])
      · exact Or.inr (by simp [lexLe, h])
    · exact Or.inr (by simp [lexLe, h])

theorem lexLe_trans : ∀ a b c : Str,
    lexLe a b = true → lexLe b c = true → lexLe a c = true
  | [], _, _, _, _ => rfl
  | _ :: _, [], _, h1, _ => by simp [lexLe] at h1
  | _ :: _, _ :: _, [], _, h2 => by simp [lexLe] at h2
  | a :: as, b :: bs, c :: cs, h1, h2 => by
    rcases lt_trichotomy a b with hab | hab | hab
    · rcases lt_trichotomy b c with hbc | hbc | hbc
      · simp [lexLe, hab.trans hbc]
      · subst hbc; simp [lexLe, hab]
      · simp [lexLe, hbc, not_lt.mpr hbc.le] at h2
    · subst hab
      rcases lt_trichotomy a c with hac | hac | hac
      · simp [lexLe, hac]
      · subst hac
        simp only [lexLe, lt_irrefl, if_false] at h1 h2 ⊢
        exact lexLe_trans as bs cs h1 h2
      · simp [lexLe, hac, not_lt.mpr hac.le] at h2
    · simp [lexLe, hab, not_lt.mpr hab.le] at h1

instance : IsTotal Str pathLe := ⟨lexLe_total⟩

instance : IsTrans Str pathLe := ⟨fun a b c => lexLe_trans a b c⟩

/-- Python's `s.split(sep)` for a one-character separator, taken to be the
path separator `os.sep = '/'`.  As in Python, the empty string splits into
`[""]` (one empty piece), so `len(s.split(os.sep))` is one more than the
number of separators. -/
def splitSep : Str → List Str
  | [] => [[]]
  | c :: cs =>
    if c = '/' then [] :: splitSep cs
    else
      match splitSep cs with
      | [] => [[c]]
      | piece :: rest => (c :: piece) :: rest

/-- `path` ends with `suffix` (as strings). -/
def strEndsWith (path suffix : Str) : Bool :=
  decide (path.reverse.take suffix.length = suffix.reverse)

/-- The glob pattern `*.[jp][pn]g` (batch_process.py line 126) applied to a
path: the name must end in `.` then a character of `[jp]`, then one of
`[pn]`, then `g`; the `*` matches any (possibly empty) prefix.  Note this
admits exactly the four suffixes `.jpg`, `.jng`, `.ppg`, `.png`. -/
def matchesGenericPattern (path : Str) : Bool :=
  match path.reverse with
  | g :: c2 :: c1 :: d :: _ =>
    (g = 'g') && (d = '.') && (c1 = 'j' || c1 = 'p') && (c2 = 'p' || c2 = 'n')
  | _ => false

/-- The glob pattern `*.jpeg` (batch_process.py line 127) applied to a path:
the name must end in `.jpeg`. -/
def matchesJpegPattern (path : Str) : Bool :=
  match path.reverse with
  | g :: e :: p :: j :: d :: _ =>
    (g = 'g') && (e = 'e') && (p = 'p') && (j = 'j') && (d = '.')
  | _ => false

/-- The two glob calls of batch_process.py line 130, concatenated in program
order: `glob.glob(file_pattern, recursive=True) + glob.glob(jpeg_pattern,
recursive=True)` over the files of the scanned tree. -/
def globImagePaths (files : List Str) : List Str :=
  files.filter matchesGenericPattern ++ files.filter matchesJpegPattern

/-- The depth post-filter of batch_process.py line 133:
`len(path.split(os.sep)) - len(directory_path.split(os.sep)) <= 4`
(computed in `Int`, as Python subtraction can go negative). -/
def imageDepthOk (directory_path path : Str) : Bool :=
  decide (((splitSep path).length : Int) - ((splitSep directory_path).length : Int) ≤ 4)

/-- File discovery of batch_process.py lines 126-133:
`image_paths = sorted(glob(file_pattern) + glob(jpeg_pattern))` followed by
the depth-4 post-filter.  `sorted` is modelled by insertion sort under the
lexicographic order on path strings. -/
def discoverImages (directory_path : Str) (files : List Str) : List Str :=
  (List.insertionSort pathLe (globImagePaths files)).filter (imageDepthOk directory_path)

/-- A region of interest `(x1, y1, x2, y2)` as produced by
`ROISelector.on_select`: `int(eclick.xdata), int(eclick.ydata),
int(erelease.xdata), int(erelease.ydata)`. -/
abbrev Roi := Int × Int × Int × Int

/-- The state of a `ROISelector` instance together with the state of its
display surface, over an abstract type `W` of axis-limit values.
`roi`, `original_xlim`, `original_ylim` and `selecting_roi` are the
attributes of the Python object; `ax_xlim`/`ax_ylim` are the current limits
of its Axes, and `closed` records whether the figure window has been closed
(`plt.close()` or the window manager). -/
structure SelState (W : Type) where
  roi : Option Roi
  original_xlim : Option W
  original_ylim : Option W
  ax_xlim : W
  ax_ylim : W
  selecting_roi : Bool
  closed : Bool

/-- The UI events the display surface can deliver while `plt.show()` blocks:
a completed drag of the rectangle selector (matplotlib calls `on_select`
with the click and release coordinates), a click on the confirm button, a
click on the reset-zoom button, and the window being closed by other means. -/
inductive RoiEvent where
  | drag (x1 y1 x2 y2 : Int)
  | confirm
  | resetZoom
  | close

/-- Whether an event is a completed drag. -/
def RoiEvent.isDrag : RoiEvent → Bool
  | .drag _ _ _ _ => true
  | _ => false

/-- The operator feedback printed by `confirm_roi`:
`"No ROI selected yet."` or `"ROI selected: ..."`. -/
inductive ConfirmMsg where
  | noRoiYet
  | roiSelected (r : Roi)

/-- `ROISelector.on_select` (lines 29-31): a completed drag stores the
dragged bounds as the candidate ROI, but only while `selecting_roi` is
armed. -/
def on_select {W : Type} (s : SelState W) (x1 y1 x2 y2 : Int) : SelState W :=
  if s.selecting_roi then { s with roi := some (x1, y1, x2, y2) } else s

/-- `ROISelector.confirm_roi` (lines 33-38): with no candidate it only
prints `"No ROI selected yet."`; with a candidate it prints the ROI and
closes the figure (`plt.close()`), which ends `plt.show()`. -/
def confirm_roi {W : Type} (s : SelState W) : SelState W × ConfirmMsg :=
  match s.roi with
  | none => (s, ConfirmMsg.noRoiYet)
  | some r => ({ s with closed := true }, ConfirmMsg.roiSelected r)

/-- `ROISelector.reset_zoom` (lines 40-45): if the original limits were
captured, restore both axis limits to them (the aspect-ratio and canvas
redraw calls have no state beyond the limits). -/
def reset_zoom {W : Type} (s : SelState W) : SelState W :=
  match s.original_xlim, s.original_ylim with
  | some xl, some yl => { s with ax_xlim := xl, ax_ylim := yl }
  | _, _ => s

/-- One UI event delivered during `plt.show()`.  After the window is closed
no further events are delivered. -/
def selStep {W : Type} (s : SelState W) (e : RoiEvent) : SelState W :=
  if s.closed then s
  else
    match e with
    | .drag x1 y1 x2 y2 => on_select s x1 y1 x2 y2
    | .confirm => (confirm_roi s).1
    | .resetZoom => reset_zoom s
    | .close => { s with closed := true }

/-- The event loop run by `plt.show()` over a sequence of UI events. -/
def runSelEvents {W : Type} (s : SelState W) (es : List RoiEvent) : SelState W :=
  es.foldl selStep s

/-- `ROISelector.__init__` (lines 10-27): no candidate ROI, no captured
limits, not armed; `xl0`/`yl0` are the fresh figure's initial axis limits. -/
def selectorInit {W : Type} (xl0 yl0 : W) : SelState W :=
  { roi := none, original_xlim := none, original_ylim := none,
    ax_xlim := xl0, ax_ylim := yl0, selecting_roi := false, closed := false }

/-- The entry portion of `ROISelector.select_roi` (lines 48-59): `imshow`
sets the axis limits from the displayed image (`imgXlim`/`imgYlim`), the
current limits are captured as the originals, and selection is armed. -/
def select_roi_start {W : Type} (s : SelState W) (imgXlim imgYlim : W) : SelState W :=
  { s with ax_xlim := imgXlim, ax_ylim := imgYlim,
           original_xlim := some imgXlim, original_ylim := some imgYlim,
           selecting_roi := true }

/-- `ROISelector.select_roi` (lines 47-67) on a fresh selector: display the
image, run the UI event loop until `plt.show()` returns, then either raise
`ValueError("No ROI selected. ...")` (modelled `.error ()`) when no candidate
was ever stored, or return the candidate. -/
def select_roi {W : Type} (xl0 yl0 imgXlim imgYlim : W) (events : List RoiEvent) :
    Except Unit Roi :=
  match (runSelEvents (select_roi_start (selectorInit xl0 yl0) imgXlim imgYlim)
      events).roi with
  | none => Except.error ()
  | some r => Except.ok r

/-- A decoded image: a dense 2-D numeric array (`numpy` array of shape
`rows × cols`) with rational intensities. -/
structure Array2D where
  rows : Nat
  cols : Nat
  data : Nat → Nat → ℚ

/-- `numpy` slice-bound resolution for one axis of length `n`: a negative
bound counts from the end, and bounds are clamped to `[0, n]`; basic slicing
never raises. -/
def resolveIndex (n : Nat) (i : Int) : Nat :=
  (max 0 (min (if i < 0 then i + n else i) (n : Int))).toNat

/-- The crop `imgArr[y1:y2, x1:x2]` of process_image line 93 (row = y,
column = x), with `numpy` slice semantics on each axis. -/
def cropArray (a : Array2D) (x1 y1 x2 y2 : Int) : Array2D :=
  { rows := resolveIndex a.rows y2 - resolveIndex a.rows y1,
    cols := resolveIndex a.cols x2 - resolveIndex a.cols x1,
    data := fun i j => a.data (resolveIndex a.rows y1 + i) (resolveIndex a.cols x1 + j) }

/-- `numpy`'s `arr.size`: the total element count. -/
def Array2D.size (a : Array2D) : Nat := a.rows * a.cols

/-- `process_image` (batch_process.py lines 75-114) over abstract engine
types: `C` is the engine's MTF-curve representation, `F` the frequency type,
`V` the metric value type.  `decode` models `mtf.Helper.LoadImageAsArray`
(`none` = it raised; this call is NOT guarded by a try block, so its failure
escapes as `.error ()`), `calcMtf` models `mtf.MTF.CalculateMtf` and
`getVal` models `mtf.MTF.GetMtfValue` (both guarded, their failure gives
`None`).  A `roi` tuple is always truthy in Python, so cropping happens
exactly when `roi` is present. -/
def process_image {C V F : Type} (decode : Str → Option Array2D)
    (calcMtf : Array2D → Option C) (getVal : C → F → Option V)
    (image_path : Str) (frequency : F) (roi : Option Roi) :
    Except Unit (Option V) :=
  match decode image_path with
  | none => Except.error ()
  | some imgArr0 =>
    let imgArr := match roi with
      | some (x1, y1, x2, y2) => cropArray imgArr0 x1 y1 x2 y2
      | none => imgArr0
    if imgArr.size = 0 then Except.ok none
    else
      match calcMtf imgArr with
      | none => Except.ok none
      | some res =>
        match getVal res frequency with
        | none => Except.ok none
        | some mtf_value => Except.ok (some mtf_value)

/-- The exceptions that can escape `batch_process`: the
`ValueError("No images found...")` of line 136, a decode failure on the
reference image escaping through `get_roi` (line 70), and the
`ValueError("No ROI selected...")` of line 66. -/
inductive BatchError where
  | noImagesFound
  | referenceDecodeFailed
  | noRoiSelected
deriving DecidableEq

/-- `get_roi` (batch_process.py lines 69-73): decode the image (a failure
here is unguarded and propagates), build a fresh `ROISelector` (with initial
axis limits `xl0`/`yl0`), and run `select_roi` on the decoded array, whose
display limits are given by `imgView`.  `events` is the UI event sequence
delivered while the selection window is up. -/
def get_roi {W : Type} (decode : Str → Option Array2D) (imgView : Array2D → W × W)
    (xl0 yl0 : W) (events : List RoiEvent) (image_path : Str) :
    Except BatchError Roi :=
  match decode image_path with
  | none => Except.error BatchError.referenceDecodeFailed
  | some imgArr =>
    match select_roi xl0 yl0 (imgView imgArr).1 (imgView imgArr).2 events with
    | Except.error _ => Except.error BatchError.noRoiSelected
    | Except.ok r => Except.ok r

/-- Python dict insertion `results[path] = v` on an insertion-ordered
association list: overwrite in place when the key is present, else append. -/
def dictInsert {V : Type} (results : List (Str × V)) (k : Str) (v : V) :
    List (Str × V) :=
  if results.any (fun q => q.1 = k) then
    results.map (fun q => if q.1 = k then (k, v) else q)
  else results ++ [(k, v)]

/-- One iteration of the batch loop (batch_process.py lines 144-155): run
`process_image` under a `try` block; an escaping exception or a `None`
result leaves `results` unchanged, a value is inserted keyed by the path. -/
def batchStep {C V F : Type} (decode : Str → Option Array2D)
    (calcMtf : Array2D → Option C) (getVal : C → F → Option V)
    (frequency : F) (roi : Roi) (results : List (Str × V)) (path : Str) :
    List (Str × V) :=
  match process_image decode calcMtf getVal path frequency (some roi) with
  | Except.error _ => results
  | Except.ok none => results
  | Except.ok (some mtf_value) => dictInsert results path mtf_value

/-- `batch_process` (batch_process.py lines 117-157): discover image paths,
fail with `ValueError` when none are found, obtain one ROI from the first
path (decode and selection failures propagate), then fold the guarded
per-image loop over all discovered paths and return the results mapping. -/
def batch_process {C V F W : Type} (decode : Str → Option Array2D)
    (calcMtf : Array2D → Option C) (getVal : C → F → Option V)
    (imgView : Array2D → W × W) (xl0 yl0 : W) (events : List RoiEvent)
    (directory_path : Str) (files : List Str) (frequency : F) :
    Except BatchError (List (Str × V)) :=
  match discoverImages directory_path files with
  | [] => Except.error BatchError.noImagesFound
  | first_image_path :: rest =>
    match get_roi decode imgView xl0 yl0 events first_image_path with
    | Except.error e => Except.error e
    | Except.ok roi =>
      Except.ok ((first_image_path :: rest).foldl
        (batchStep decode calcMtf getVal frequency roi) [])

/-- The per-item outcome of the batch loop body: the value `process_image`
produced, or `none` when it raised or returned `None`. -/
def itemValue {C V F : Type} (decode : Str → Option Array2D)
    (calcMtf : Array2D → Option C) (getVal : C → F → Option V)
    (frequency : F) (roi : Roi) (path : Str) : Option V :=
  match process_image decode calcMtf getVal path frequency (some roi) with
  | Except.ok (some v) => some v
  | _ => none

/-! Helper lemmas. -/

/-- A path matching the `*.jpeg` pattern never matches `*.[jp][pn]g`
(its fourth-from-last character is `p`, not `.`), so the two glob result
lists of line 130 are disjoint. -/
theorem matchesGenericPattern_eq_false_of_jpeg (p : Str)
    (h : matchesJpegPattern p = true) : matchesGenericPattern p = false := by
  unfold matchesJpegPattern at h
  unfold matchesGenericPattern
  rcases hr : p.reverse with _ | ⟨g, _ | ⟨e, _ | ⟨q, _ | ⟨j, _ | ⟨d, rest⟩⟩⟩⟩⟩ <;>
    rw [hr] at h <;> simp_all

/-- The discovered path list is sorted under the lexicographic path order. -/
theorem discoverImages_sorted (d : Str) (files : List Str) :
    List.Sorted pathLe (discoverImages d files) :=
  (List.sorted_insertionSort pathLe _).filter _

/-- On a duplicate-free file tree the discovered path list is
duplicate-free. -/
theorem discoverImages_nodup (d : Str) (files : List Str) (hnd : files.Nodup) :
    (discoverImages d files).Nodup := by
  apply List.Nodup.filter
  apply ((List.perm_insertionSort pathLe _).nodup_iff).mpr
  refine List.Nodup.append (hnd.filter _) (hnd.filter _) ?_
  intro p hp1 hp2
  rw [List.mem_filter] at hp1 hp2
  rw [matchesGenericPattern_eq_false_of_jpeg p hp2.2] at hp1
  exact Bool.false_ne_true hp1.2

/-- Membership in the sorted pre-filter list (line 130): exactly the files
matching one of the two glob patterns. -/
theorem mem_sortedGlob (p : Str) (files : List Str) :
    p ∈ List.insertionSort pathLe (globImagePaths files) ↔
      p ∈ files ∧ (matchesGenericPattern p = true ∨ matchesJpegPattern p = true) := by
  rw [(List.perm_insertionSort pathLe _).mem_iff]
  unfold globImagePaths
  rw [List.mem_append, List.mem_filter, List.mem_filter]
  tauto

/-- Membership in the discovery result: a glob match that survives the
depth post-filter. -/
theorem mem_discoverImages (d p : Str) (files : List Str) :
    p ∈ discoverImages d files ↔
      p ∈ files ∧ (matchesGenericPattern p = true ∨ matchesJpegPattern p = true)
        ∧ imageDepthOk d p = true := by
  unfold discoverImages
  rw [List.mem_filter, mem_sortedGlob]
  tauto

/-- Stepping the selector with anything but a completed drag leaves the
candidate ROI unchanged. -/
theorem selStep_roi_eq_of_not_drag {W : Type} (s : SelState W) (e : RoiEvent)
    (h : e.isDrag = false) : (selStep s e).roi = s.roi := by
  unfold selStep
  by_cases hc : s.closed
  · rw [if_pos hc]
  · rw [if_neg hc]
    cases e with
    | drag x1 y1 x2 y2 => simp [RoiEvent.isDrag] at h
    | confirm =>
      unfold confirm_roi
      cases hr : s.roi <;> simp [hr]
    | resetZoom =>
      unfold reset_zoom
      cases s.original_xlim <;> cases s.original_ylim <;> simp
    | close => simp

/-- A drag-free event sequence leaves the candidate ROI unchanged. -/
theorem runSelEvents_roi_none {W : Type} (events : List RoiEvent)
    (h : ∀ e ∈ events, e.isDrag = false) :
    ∀ s : SelState W, (runSelEvents s events).roi = s.roi := by
  induction events with
  | nil => intro s; rfl
  | cons e es ih =>
    intro s
    rw [runSelEvents, List.foldl_cons]
    have h1 : (runSelEvents (selStep s e) es).roi = (selStep s e).roi :=
      ih (fun x hx => h x (List.mem_cons_of_mem e hx)) (selStep s e)
    rw [runSelEvents] at h1
    rw [h1, selStep_roi_eq_of_not_drag s e (h e (List.mem_cons_self e es))]

/-- Inserting an absent key appends the pair at the end. -/
theorem dictInsert_of_not_mem {V : Type} (results : List (Str × V)) (k : Str) (v : V)
    (h : ∀ q ∈ results, q.1 ≠ k) : dictInsert results k v = results ++ [(k, v)] := by
  have hany : (results.any (fun q => q.1 = k)) = false := by
    rw [List.any_eq_false]
    intro q hq
    simpa using h q hq
  unfold dictInsert
  rw [hany]
  simp

/-- The loop body in terms of the per-item outcome. -/
theorem batchStep_eq_itemValue {C V F : Type} (decode : Str → Option Array2D)
    (calcMtf : Array2D → Option C) (getVal : C → F → Option V)
    (frequency : F) (roi : Roi) (results : List (Str × V)) (path : Str) :
    batchStep decode calcMtf getVal frequency roi results path =
      match itemValue decode calcMtf getVal frequency roi path with
      | none => results
      | some v => dictInsert results path v := by
  unfold batchStep itemValue
  rcases process_image decode calcMtf getVal path frequency (some roi) with e | o
  · rfl
  · rcases o with _ | v <;> rfl

/-- The batch loop over duplicate-free paths whose keys are fresh in the
accumulator appends exactly the successful items, in path order. -/
theorem foldl_batchStep_eq_filterMap {C V F : Type} (decode : Str → Option Array2D)
    (calcMtf : Array2D → Option C) (getVal : C → F → Option V)
    (frequency : F) (roi : Roi) :
    ∀ (paths : List Str) (acc : List (Str × V)), paths.Nodup →
      (∀ p ∈ paths, ∀ q ∈ acc, q.1 ≠ p) →
      paths.foldl (batchStep decode calcMtf getVal frequency roi) acc
        = acc ++ paths.filterMap (fun path =>
            (itemValue decode calcMtf getVal frequency roi path).map (fun v => (path, v)))
  | [], acc, _, _ => by simp
  | path :: rest, acc, hnd, hdisj => by
    rw [List.foldl_cons, List.filterMap_cons, batchStep_eq_itemValue]
    cases hv : itemValue decode calcMtf getVal frequency roi path with
    | none =>
      rw [foldl_batchStep_eq_filterMap decode calcMtf getVal frequency roi rest acc
        (List.Nodup.of_cons hnd)
        (fun p hp q hq => hdisj p (List.mem_cons_of_mem path hp) q hq)]
      simp
    | some v =>
      dsimp only
      rw [dictInsert_of_not_mem acc path v
        (fun q hq => hdisj path (List.mem_cons_self path rest) q hq)]
      rw [foldl_batchStep_eq_filterMap decode calcMtf getVal frequency roi rest (acc ++ [(path, v)])
        (List.Nodup.of_cons hnd) ?_]
      · simp
      · intro p hp q hq
        rcases List.mem_append.mp hq with hq1 | hq2
        · exact hdisj p (List.mem_cons_of_mem path hp) q hq1
        · have : q = (path, v) := by simpa using hq2
          subst this
          simp only [ne_eq]
          intro hc
          subst hc
          exact (List.nodup_cons.mp hnd).1 hp

/-- The keys of the aggregated successes are the successful paths, in
order. -/
theorem map_fst_filterMap_itemValue {C V F : Type} (decode : Str → Option Array2D)
    (calcMtf : Array2D → Option C) (getVal : C → F → Option V)
    (frequency : F) (roi : Roi) (paths : List Str) :
    (paths.filterMap (fun path =>
        (itemValue decode calcMtf getVal frequency roi path).map (fun v => (path, v)))).map Prod.fst
      = paths.filter (fun path => (itemValue decode calcMtf getVal frequency roi path).isSome) := by
  induction paths with
  | nil => rfl
  | cons p ps ih =>
    rw [List.filterMap_cons, List.filter_cons]
    cases hv : itemValue decode calcMtf getVal frequency roi p with
    | none => simpa [hv] using ih
    | some v => simpa [hv] using ih

/-! Claim theorems. -/

/-- Claim C1 (confirmed): for every directory and frequency, when
`batch_process` returns a mapping, that mapping has an entry exactly for
the discovered paths whose evaluation produced a value (paths whose
processing raised or returned `None` are absent), each entry keyed by its
path, with insertion order following the discovery order, which is the
lexicographically sorted path order. -/
theorem batch_results_exactly_successes_in_discovery_order {C V F W : Type}
    (decode : Str → Option Array2D) (calcMtf : Array2D → Option C)
    (getVal : C → F → Option V) (imgView : Array2D → W × W) (xl0 yl0 : W)
    (events : List RoiEvent) (directory_path : Str) (files : List Str)
    (frequency : F) (results : List (Str × V)) (hnd : files.Nodup)
    (hok : batch_process decode calcMtf getVal imgView xl0 yl0 events
      directory_path files frequency = Except.ok results) :
    ∃ roi : Roi,
      results = (discoverImages directory_path files).filterMap (fun path =>
        (itemValue decode calcMtf getVal frequency roi path).map (fun v => (path, v))) ∧
      results.map Prod.fst = (discoverImages directory_path files).filter
        (fun path => (itemValue decode calcMtf getVal frequency roi path).isSome) ∧
      List.Sorted pathLe (results.map Prod.fst) := by
  have hdnd : (discoverImages directory_path files).Nodup :=
    discoverImages_nodup directory_path files hnd
  have hdsorted : List.Sorted pathLe (discoverImages directory_path files) :=
    discoverImages_sorted directory_path files
  unfold batch_process at hok
  rcases hd : discoverImages directory_path files with _ | ⟨first, rest⟩
  · rw [hd] at hok
    exact absurd hok (by simp)
  · rw [hd] at hok hdnd hdsorted
    dsimp only at hok
    rcases hro : get_roi decode imgView xl0 yl0 events first with e | roi
    · rw [hro] at hok
      exact absurd hok (by simp)
    · rw [hro] at hok
      dsimp only at hok
      have hres : results = (first :: rest).foldl
          (batchStep decode calcMtf getVal frequency roi) [] :=
        (Except.ok.inj hok).symm
      rw [foldl_batchStep_eq_filterMap decode calcMtf getVal frequency roi
        (first :: rest) [] hdnd (by simp)] at hres
      rw [List.nil_append] at hres
      refine ⟨roi, hres, ?_, ?_⟩
      · rw [hres, map_fst_filterMap_itemValue]
      · rw [hres, map_fst_filterMap_itemValue]
        exact hdsorted.filter _

/-- Witness for claim C1: a concrete one-image batch run whose returned
mapping is exactly the filtered-success mapping over the discovered
paths. -/
theorem batch_results_exactly_successes_in_discovery_order_witness :
    ∃ roi : Roi,
      [("r/a.png".data, (7 : Nat))] = (discoverImages "r".data ["r/a.png".data]).filterMap
        (fun path => (itemValue (fun _ => some ⟨2, 2, fun _ _ => 0⟩)
          (fun _ => (some () : Option Unit)) (fun _ _ => (some 7 : Option Nat))
          (0 : Nat) roi path).map (fun v => (path, v))) ∧
      [("r/a.png".data, (7 : Nat))].map Prod.fst = (discoverImages "r".data ["r/a.png".data]).filter
        (fun path => (itemValue (fun _ => some ⟨2, 2, fun _ _ => 0⟩)
          (fun _ => (some () : Option Unit)) (fun _ _ => (some 7 : Option Nat))
          (0 : Nat) roi path).isSome) ∧
      List.Sorted pathLe ([("r/a.png".data, (7 : Nat))].map Prod.fst) :=
  batch_results_exactly_successes_in_discovery_order
    (fun _ => some ⟨2, 2, fun _ _ => 0⟩) (fun _ => (some () : Option Unit))
    (fun _ _ => (some 7 : Option Nat)) (fun _ => ((0 : Int), 0)) 0 0
    [RoiEvent.drag 0 0 2 2, RoiEvent.confirm] "r".data ["r/a.png".data] (0 : Nat)
    [("r/a.png".data, 7)] (by decide) rfl

/-- Claim C2 (counterexample): `process_image` DOES raise on a decode
failure — the `LoadImageAsArray` call at line 88 is outside every `try`
block, so with a raising decoder the function propagates the exception
instead of returning `None`, refuting the claim that the evaluator never
raises. -/
theorem process_image_raises_on_decode_failure :
    process_image (fun _ => none) (fun _ => (none : Option Unit))
      (fun _ _ => (none : Option Nat)) "a.png".data (0 : Nat) none = Except.error () := rfl

/-- Claim C2 (amended): for every path, ROI and frequency on which the
decode succeeds, `process_image` never raises — every failure of the
crop/compute/evaluate chain degrades to an absent (`None`) result; only a
decode failure escapes as an exception. -/
theorem process_image_no_raise_when_decode_succeeds {C V F : Type}
    (decode : Str → Option Array2D) (calcMtf : Array2D → Option C)
    (getVal : C → F → Option V) (image_path : Str) (frequency : F)
    (roi : Option Roi) (a : Array2D) (hdec : decode image_path = some a) :
    ∃ r : Option V, process_image decode calcMtf getVal image_path frequency roi
      = Except.ok r := by
  unfold process_image
  rw [hdec]
  dsimp only
  split
  · exact ⟨none, rfl⟩
  · split
    · exact ⟨none, rfl⟩
    · split
      · exact ⟨none, rfl⟩
      · exact ⟨_, rfl⟩

/-- Witness for claim C2 (amended): a concrete successful decode for which
`process_image` returns normally. -/
theorem process_image_no_raise_when_decode_succeeds_witness :
    ∃ r : Option Nat, process_image (fun _ => some ⟨2, 2, fun _ _ => 0⟩)
      (fun _ => (some () : Option Unit)) (fun _ _ => (some 7 : Option Nat))
      "a.png".data (0 : Nat) none = Except.ok r :=
  process_image_no_raise_when_decode_succeeds (fun _ => some ⟨2, 2, fun _ _ => 0⟩)
    (fun _ => (some () : Option Unit)) (fun _ _ => (some 7 : Option Nat))
    "a.png".data (0 : Nat) none ⟨2, 2, fun _ _ => 0⟩ rfl

/-- Claim C3 (counterexample): an event sequence in which a drag completed
and the display surface was then closed WITHOUT the confirm affordance ever
firing makes `select_roi` return the dragged rectangle — line 65 only
raises when `self.roi is None`, so termination without confirmation does
not fail once a drag has stored a candidate, refuting the claim. -/
theorem select_roi_returns_rectangle_without_confirm :
    select_roi (0 : Int) 0 0 0 [RoiEvent.drag 1 2 3 4, RoiEvent.close]
      = Except.ok (1, 2, 3, 4) := rfl

/-- Claim C3 (amended): for every event sequence in which the session
terminates without any completed drag having stored a candidate ROI, the
selector fails with the no-ROI `ValueError`; if a drag completed, the
candidate is returned even when confirm never fired. -/
theorem select_roi_fails_when_no_drag_completed {W : Type} (xl0 yl0 imgXlim imgYlim : W)
    (events : List RoiEvent) (hnodrag : ∀ e ∈ events, e.isDrag = false) :
    select_roi xl0 yl0 imgXlim imgYlim events = Except.error () := by
  have hroi : (runSelEvents (select_roi_start (selectorInit xl0 yl0) imgXlim imgYlim)
      events).roi = none := by
    rw [runSelEvents_roi_none events hnodrag]
    rfl
  unfold select_roi
  rw [hroi]

/-- Witness for claim C3 (amended): a session with confirm and reset-zoom
clicks but no drag, closed by the window manager, fails. -/
theorem select_roi_fails_when_no_drag_completed_witness :
    select_roi (0 : Int) 0 0 0 [RoiEvent.confirm, RoiEvent.resetZoom, RoiEvent.close]
      = Except.error () :=
  select_roi_fails_when_no_drag_completed (0 : Int) 0 0 0
    [RoiEvent.confirm, RoiEvent.resetZoom, RoiEvent.close] (by decide)

/-- Claim C4 (code bug): discovery includes the file `root/photo.jng`,
whose extension is none of `.jpg`, `.jpeg`, `.png` — the glob character
class `*.[jp][pn]g` of line 126 also matches `.jng` (and `.ppg`),
contradicting the claim and the code's own comment on line 125. -/
theorem discovery_includes_jng_extension :
    discoverImages "root".data ["root/photo.jng".data] = ["root/photo.jng".data] ∧
    strEndsWith "root/photo.jng".data ".jpg".data = false ∧
    strEndsWith "root/photo.jng".data ".jpeg".data = false ∧
    strEndsWith "root/photo.jng".data ".png".data = false := by
  decide

/-- Claim C5 (confirmed): discovery returns the pattern matches whose
segment count beyond the root's segment count is at most 4, each path
appearing once (on a duplicate-free tree), sorted lexicographically;
deeper matches are present in the recursive scan's sorted result and are
removed by the depth post-filter. -/
theorem discovery_depth_filtered_sorted_once (directory_path p : Str) (files : List Str)
    (hnd : files.Nodup) :
    List.Sorted pathLe (discoverImages directory_path files) ∧
    (discoverImages directory_path files).Nodup ∧
    (p ∈ List.insertionSort pathLe (globImagePaths files) ↔
      p ∈ files ∧ (matchesGenericPattern p = true ∨ matchesJpegPattern p = true)) ∧
    (p ∈ discoverImages directory_path files ↔
      p ∈ List.insertionSort pathLe (globImagePaths files)
        ∧ imageDepthOk directory_path p = true) :=
  ⟨discoverImages_sorted directory_path files,
   discoverImages_nodup directory_path files hnd,
   mem_sortedGlob p files,
   List.mem_filter⟩

/-- Witness for claim C5: a tree with a depth-6 match, which the scan
finds and the depth post-filter removes. -/
theorem discovery_depth_filtered_sorted_once_witness :
    List.Sorted pathLe (discoverImages "r".data ["r/a/b/c/d/e/x.png".data, "r/x.png".data]) ∧
    (discoverImages "r".data ["r/a/b/c/d/e/x.png".data, "r/x.png".data]).Nodup ∧
    ("r/a/b/c/d/e/x.png".data ∈
        List.insertionSort pathLe (globImagePaths ["r/a/b/c/d/e/x.png".data, "r/x.png".data]) ↔
      "r/a/b/c/d/e/x.png".data ∈ ["r/a/b/c/d/e/x.png".data, "r/x.png".data] ∧
        (matchesGenericPattern "r/a/b/c/d/e/x.png".data = true ∨
          matchesJpegPattern "r/a/b/c/d/e/x.png".data = true)) ∧
    ("r/a/b/c/d/e/x.png".data ∈ discoverImages "r".data ["r/a/b/c/d/e/x.png".data, "r/x.png".data] ↔
      "r/a/b/c/d/e/x.png".data ∈
          List.insertionSort pathLe (globImagePaths ["r/a/b/c/d/e/x.png".data, "r/x.png".data])
        ∧ imageDepthOk "r".data "r/a/b/c/d/e/x.png".data = true) :=
  discovery_depth_filtered_sorted_once "r".data "r/a/b/c/d/e/x.png".data
    ["r/a/b/c/d/e/x.png".data, "r/x.png".data] (by decide)

/-- Claim C6 (confirmed): for every path, frequency and ROI whose crop of
the decoded array has zero elements along either axis, `process_image`
returns absent (`None`) without attempting the MTF computation — the
conclusion holds for every possible engine, so the engine is never
consulted — and does not raise. -/
theorem process_image_empty_crop_returns_absent {C V F : Type}
    (decode : Str → Option Array2D) (calcMtf : Array2D → Option C)
    (getVal : C → F → Option V) (image_path : Str) (frequency : F)
    (x1 y1 x2 y2 : Int) (a : Array2D) (hdec : decode image_path = some a)
    (hempty : (cropArray a x1 y1 x2 y2).rows = 0 ∨ (cropArray a x1 y1 x2 y2).cols = 0) :
    process_image decode calcMtf getVal image_path frequency (some (x1, y1, x2, y2))
      = Except.ok none := by
  have hsize : (cropArray a x1 y1 x2 y2).size = 0 := by
    unfold Array2D.size
    rcases hempty with h | h <;> rw [h] <;> simp
  unfold process_image
  rw [hdec]
  dsimp only
  rw [if_pos hsize]

/-- Witness for claim C6: an ROI entirely outside a 2-by-2 image yields a
zero-row crop and an absent result. -/
theorem process_image_empty_crop_returns_absent_witness :
    process_image (fun _ => some ⟨2, 2, fun _ _ => 0⟩) (fun _ => (some () : Option Unit))
      (fun _ _ => (some 7 : Option Nat)) "a.png".data (0 : Nat) (some (5, 5, 9, 9))
      = Except.ok none :=
  process_image_empty_crop_returns_absent (fun _ => some ⟨2, 2, fun _ _ => 0⟩)
    (fun _ => (some () : Option Unit)) (fun _ _ => (some 7 : Option Nat))
    "a.png".data (0 : Nat) 5 5 9 9 ⟨2, 2, fun _ _ => 0⟩ rfl (Or.inl rfl)

/-- Helper for claim C7: `get_roi` never raises the no-images error. -/
theorem get_roi_ne_noImagesFound {W : Type} (decode : Str → Option Array2D)
    (imgView : Array2D → W × W) (xl0 yl0 : W) (events : List RoiEvent) (p : Str) :
    get_roi decode imgView xl0 yl0 events p ≠ Except.error BatchError.noImagesFound := by
  unfold get_roi
  split
  · simp
  · split <;> simp

/-- Claim C7 (confirmed): when the depth/extension-filtered discovery
result is empty the run fails with the no-images `ValueError` — for every
event sequence and view, i.e. before ROI selection can matter — and when
it is non-empty, discovery raises no error (the run never fails with the
no-images error). -/
theorem batch_process_noImagesFound_iff_empty_discovery {C V F W : Type}
    (decode : Str → Option Array2D) (calcMtf : Array2D → Option C)
    (getVal : C → F → Option V) (imgView : Array2D → W × W) (xl0 yl0 : W)
    (events : List RoiEvent) (directory_path : Str) (files : List Str) (frequency : F) :
    (discoverImages directory_path files = [] →
      batch_process decode calcMtf getVal imgView xl0 yl0 events directory_path files frequency
        = Except.error BatchError.noImagesFound) ∧
    (discoverImages directory_path files ≠ [] →
      batch_process decode calcMtf getVal imgView xl0 yl0 events directory_path files frequency
        ≠ Except.error BatchError.noImagesFound) := by
  constructor
  · intro h
    unfold batch_process
    rw [h]
  · intro h
    unfold batch_process
    rcases hd : discoverImages directory_path files with _ | ⟨first, rest⟩
    · exact absurd hd h
    · dsimp only
      rcases hro : get_roi decode imgView xl0 yl0 events first with e | roi
      · dsimp only
        intro hc
        rw [show e = BatchError.noImagesFound from by injection hc] at hro
        exact get_roi_ne_noImagesFound decode imgView xl0 yl0 events first hro
      · dsimp only
        simp

/-- Witness for claim C7: a tree with no matching file fails with the
no-images error; a tree with one match does not. -/
theorem batch_process_noImagesFound_iff_empty_discovery_witness :
    batch_process (C := Unit) (fun _ => some ⟨2, 2, fun _ _ => 0⟩) (fun _ => some ())
      (fun _ _ => (some 7 : Option Nat)) (fun _ => ((0 : Int), 0)) 0 0
      [RoiEvent.drag 0 0 2 2, RoiEvent.confirm] "r".data ["r/readme.txt".data] (0 : Nat)
      = Except.error BatchError.noImagesFound ∧
    batch_process (C := Unit) (fun _ => some ⟨2, 2, fun _ _ => 0⟩) (fun _ => some ())
      (fun _ _ => (some 7 : Option Nat)) (fun _ => ((0 : Int), 0)) 0 0
      [RoiEvent.drag 0 0 2 2, RoiEvent.confirm] "r".data ["r/a.png".data] (0 : Nat)
      ≠ Except.error BatchError.noImagesFound :=
  ⟨(batch_process_noImagesFound_iff_empty_discovery (fun _ => some ⟨2, 2, fun _ _ => 0⟩)
      (fun _ => some ()) (fun _ _ => (some 7 : Option Nat)) (fun _ => ((0 : Int), 0)) 0 0
      [RoiEvent.drag 0 0 2 2, RoiEvent.confirm] "r".data ["r/readme.txt".data] (0 : Nat)).1
    (by decide),
   (batch_process_noImagesFound_iff_empty_discovery (fun _ => some ⟨2, 2, fun _ _ => 0⟩)
      (fun _ => some ()) (fun _ _ => (some 7 : Option Nat)) (fun _ => ((0 : Int), 0)) 0 0
      [RoiEvent.drag 0 0 2 2, RoiEvent.confirm] "r".data ["r/a.png".data] (0 : Nat)).2
    (by decide)⟩

/-- Claim C8 (confirmed): in every selector state with no candidate ROI,
firing the confirm affordance is a no-op: it reports the
no-selection-yet feedback, raises nothing, leaves the whole state
(including the absent candidate and the open window) exactly unchanged,
and does not close the figure, so no transition to the confirmed terminal
state happens. -/
theorem confirm_roi_no_candidate_noop {W : Type} (s : SelState W) (h : s.roi = none) :
    confirm_roi s = (s, ConfirmMsg.noRoiYet) := by
  unfold confirm_roi
  rw [h]

/-- Witness for claim C8: confirming on a concrete armed state with no
candidate returns the state unchanged with the no-selection feedback. -/
theorem confirm_roi_no_candidate_noop_witness :
    confirm_roi (⟨none, some 7, some 8, 5, 6, true, false⟩ : SelState Int)
      = ((⟨none, some 7, some 8, 5, 6, true, false⟩ : SelState Int), ConfirmMsg.noRoiYet) :=
  confirm_roi_no_candidate_noop (⟨none, some 7, some 8, 5, 6, true, false⟩ : SelState Int) rfl

/-- Claim C9 (confirmed): in every selector state whose entry bounds were
captured, firing the reset-zoom affordance restores the axis limits to the
captured bounds and leaves the candidate ROI — and every other piece of
selection state — exactly unchanged. -/
theorem reset_zoom_restores_bounds_preserves_roi {W : Type} (s : SelState W) (xl yl : W)
    (hx : s.original_xlim = some xl) (hy : s.original_ylim = some yl) :
    (reset_zoom s).ax_xlim = xl ∧ (reset_zoom s).ax_ylim = yl ∧
    (reset_zoom s).roi = s.roi ∧ (reset_zoom s).original_xlim = s.original_xlim ∧
    (reset_zoom s).original_ylim = s.original_ylim ∧
    (reset_zoom s).selecting_roi = s.selecting_roi ∧ (reset_zoom s).closed = s.closed := by
  unfold reset_zoom
  rw [hx, hy]
  simp

/-- Witness for claim C9: resetting zoom on a concrete zoomed state with a
candidate restores the captured bounds and keeps the candidate. -/
theorem reset_zoom_restores_bounds_preserves_roi_witness :
    (reset_zoom (⟨some (1, 2, 3, 4), some 7, some 8, 5, 6, true, false⟩ : SelState Int)).ax_xlim = 7 ∧
    (reset_zoom (⟨some (1, 2, 3, 4), some 7, some 8, 5, 6, true, false⟩ : SelState Int)).ax_ylim = 8 ∧
    (reset_zoom (⟨some (1, 2, 3, 4), some 7, some 8, 5, 6, true, false⟩ : SelState Int)).roi = some (1, 2, 3, 4) ∧
    (reset_zoom (⟨some (1, 2, 3, 4), some 7, some 8, 5, 6, true, false⟩ : SelState Int)).original_xlim = some 7 ∧
    (reset_zoom (⟨some (1, 2, 3, 4), some 7, some 8, 5, 6, true, false⟩ : SelState Int)).original_ylim = some 8 ∧
    (reset_zoom (⟨some (1, 2, 3, 4), some 7, some 8, 5, 6, true, false⟩ : SelState Int)).selecting_roi = true ∧
    (reset_zoom (⟨some (1, 2, 3, 4), some 7, some 8, 5, 6, true, false⟩ : SelState Int)).closed = false := by
  simpa using reset_zoom_restores_bounds_preserves_roi
    (⟨some (1, 2, 3, 4), some 7, some 8, 5, 6, true, false⟩ : SelState Int) 7 8 rfl rfl

/-- Claim C10 (confirmed): in the batch loop, an exception raised while
processing a path (such as a decode error escaping the evaluator) is
absorbed by the per-item handler: no entry is added for that path, the
accumulated mapping is returned unchanged by that step, and the loop
continues with the remaining paths. -/
theorem batch_loop_absorbs_item_exceptions {C V F : Type} (decode : Str → Option Array2D)
    (calcMtf : Array2D → Option C) (getVal : C → F → Option V) (frequency : F)
    (roi : Roi) (results : List (Str × V)) (path : Str) (rest : List Str) (err : Unit)
    (hfail : process_image decode calcMtf getVal path frequency (some roi) = Except.error err) :
    batchStep decode calcMtf getVal frequency roi results path = results ∧
    (path :: rest).foldl (batchStep decode calcMtf getVal frequency roi) results
      = rest.foldl (batchStep decode calcMtf getVal frequency roi) results := by
  have h1 : batchStep decode calcMtf getVal frequency roi results path = results := by
    unfold batchStep
    rw [hfail]
  exact ⟨h1, by rw [List.foldl_cons, h1]⟩

/-- Witness for claim C10: a path whose decode raises leaves the
accumulated mapping unchanged and the loop proceeds to the rest. -/
theorem batch_loop_absorbs_item_exceptions_witness :
    batchStep (fun _ => none) (fun _ => (none : Option Unit)) (fun _ _ => (none : Option Nat))
      (0 : Nat) (0, 0, 2, 2) [("b.png".data, 5)] "a.png".data = [("b.png".data, 5)] ∧
    ("a.png".data :: ["c.png".data]).foldl
        (batchStep (fun _ => none) (fun _ => (none : Option Unit))
          (fun _ _ => (none : Option Nat)) (0 : Nat) (0, 0, 2, 2)) [("b.png".data, 5)]
      = ["c.png".data].foldl
          (batchStep (fun _ => none) (fun _ => (none : Option Unit))
            (fun _ _ => (none : Option Nat)) (0 : Nat) (0, 0, 2, 2)) [("b.png".data, 5)] :=
  batch_loop_absorbs_item_exceptions (fun _ => none) (fun _ => (none : Option Unit))
    (fun _ _ => (none : Option Nat)) (0 : Nat) (0, 0, 2, 2) [("b.png".data, 5)]
    "a.png".data ["c.png".data] () rfl
